import Mathlib

/-!
Verification development for the arkus-scraper-worker repository.

The browser-driven scrapers (scripts/hotel_propio.js, scripts/scrape_songkick.js,
scripts/scrapeo_geo.js) are embedded shallowly: every page/browser primitive that
can fail (launch, newPage, goto, evaluate, screenshot, close, ...) is modelled by
an environment field of type Option carrying its outcome (none means the awaited
call threw), and each scraper is a total Lean function from such an environment to
an Except-valued result mirroring the JavaScript control flow (try/catch, early
returns) statement by statement.  Pure in-page logic (deduplication, the
JSON-LD/anchor extraction, the date-range partition, the pagination loop) is
translated directly.  Floating-point trigonometry (the haversine helper toKm) is
abstracted as a rational-valued distance-function parameter; everything downstream
of it (the radius comparison, rounding to 2 decimals) is modelled exactly on
rationals.  String operations from the source (trim, slice, startsWith,
toLowerCase, includes) are spelled out on character lists.
-/

namespace Arkus

/-! ## Price records and the first-seen-per-room-type deduplicator
    (scripts/hotel_propio.js lines 381-389, 458-460, 577-579) -/

/-- One extracted room row, as pushed by the page.evaluate extraction snippets:
an object with room_type and price strings, and in the single-day primary/fallback
strategies also a source tag. -/
structure RoomRec where
  room_type : String
  price : String
  source : Option String := none
deriving DecidableEq, Repr

/-- JS String.prototype.trim: strip leading and trailing whitespace
(spelled out on the character list). -/
def jsTrim (s : String) : String :=
  String.mk (((s.toList.dropWhile Char.isWhitespace).reverse.dropWhile
    Char.isWhitespace).reverse)

/-- JS s.slice(0, n). -/
def strSlice (s : String) (n : ℕ) : String := String.mk (s.toList.take n)

/-- JS String.prototype.startsWith. -/
def strStartsWith (s pre : String) : Bool := pre.toList.isPrefixOf s.toList

/-- Dedup key of a room record: the JS code uses (r.room_type or empty).trim(). -/
def roomKey (r : RoomRec) : String := jsTrim r.room_type

/-- Loop body of the dedupe: walks the list keeping the first record per
non-empty trimmed room_type, with the set of already-seen keys made explicit. -/
def firstPriceGo (seen : List String) : List RoomRec → List RoomRec
  | [] => []
  | r :: rs =>
    let key := roomKey r
    if key == "" || seen.contains key then firstPriceGo seen rs
    else r :: firstPriceGo (key :: seen) rs

/-- Deduplication used by every price path of hotel_propio.js: keep only the first
price per distinct trimmed room_type, dropping records whose key is empty. -/
def firstPriceByType (rooms : List RoomRec) : List RoomRec := firstPriceGo [] rooms

/-! ## Date-range partition of the multi-day scheduler
    (scripts/hotel_propio.js line 505) -/

/-- The three hard-coded date blocks, filtered to those with start <= end:
dateRanges = [[0, min(30, days-1)], [31, min(60, days-1)], [61, min(90, days-1)]]
  .filter(([a,b]) => a <= b). -/
def dateRanges (days : ℤ) : List (ℤ × ℤ) :=
  [((0 : ℤ), min 30 (days - 1)), (31, min 60 (days - 1)), (61, min 90 (days - 1))].filter
    (fun p => p.1 ≤ p.2)

/-! ## Single-day Booking price scraper scrapeBookingPrices
    (scripts/hotel_propio.js lines 61-472)

Each field of BookingEnv is the outcome of one awaited browser primitive at a
specific call site, in source order; none means the call threw.  Evaluate calls
return their in-page result.  The JavaScript try/catch nesting is reproduced in
the control flow of scrapeBookingPricesE below. -/

/-- One search-result candidate collected by the candidate page.evaluate
(title text plus href); the snippet only pushes entries with a truthy href,
but the model keeps href a plain string and re-checks emptiness where the
JS re-checks truthiness. -/
structure Candidate where
  title : String
  href : String
deriving DecidableEq, Repr

/-- JS s.toLowerCase(), character by character. -/
def strLower (s : String) : String := String.mk (s.toList.map Char.toLower)

/-- JS s.toLowerCase().replace(whitespace-runs, one space).trim(): lower-case,
split at whitespace, drop the empty pieces, re-join with single spaces. -/
def normalizeName (s : String) : String :=
  String.mk (List.intercalate [' ']
    ((((strLower s).toList).splitOnP (fun c => c.isWhitespace)).filter
      (fun w => w ≠ [])))

/-- Substring occurrence on character lists. -/
def charsIncludes (sub : List Char) : List Char → Bool
  | [] => sub.isEmpty
  | c :: t => sub.isPrefixOf (c :: t) || charsIncludes sub t

/-- JS String.prototype.includes. -/
def strIncludes (s sub : String) : Bool := charsIncludes sub.toList s.toList

/-- The case-insensitive href penalty test: /sandiego|san-diego|usa|united-states/i. -/
def hrefPenalty (href : String) : Bool :=
  let h := strLower href
  strIncludes h "sandiego" || strIncludes h "san-diego" || strIncludes h "usa" ||
    strIncludes h "united-states"

/-- Empirical match score of one candidate against the normalized target name:
+100 for a full substring match, +2 per shared word longer than 2 characters,
-5 when the href matches the other-city penalty pattern. -/
def scoreCandidate (target : String) (c : Candidate) : ℤ :=
  let title := normalizeName c.title
  let base : ℤ := if strIncludes title target then 100 else 0
  let words := (target.toList.splitOnP (fun ch => ch == ' ')).filter
    (fun w => w.length > 2)
  let wordPts : ℤ := 2 * ((words.filter (fun w => charsIncludes w title.toList)).length : ℤ)
  let pen : ℤ := if hrefPenalty c.href then 5 else 0
  base + wordPts - pen

/-- The best-candidate fold: best starts null with bestScore -1 and is replaced
only on a strictly greater score. -/
def bestCandidate (target : String) (cands : List Candidate) : Option Candidate × ℤ :=
  cands.foldl
    (fun acc c =>
      let s := scoreCandidate target c
      if acc.2 < s then (some c, s) else acc)
    (none, -1)

/-- chosenHref = (best and bestScore greater-equal 0) ? best.href : (candidates[0]?.href or null),
followed by the truthiness test if (!chosenHref): an empty href counts as no result. -/
def chooseHref (hotelName : String) (cands : List Candidate) : Option String :=
  let target := normalizeName hotelName
  let bs := bestCandidate target cands
  let raw : Option String :=
    match bs.1 with
    | some c => if 0 ≤ bs.2 then some c.href else cands.head?.map (fun c => c.href)
    | none => cands.head?.map (fun c => c.href)
  match raw with
  | some h => if h = "" then none else some h
  | none => none

/-- Per-retry-day primitive outcomes (lines 403-467): the goto to the shifted
date, the extraction evaluate, and the browser.close on the success path,
all inside the per-iteration try. -/
structure RetryDayEnv where
  goto : Option Unit
  eval : Option (List RoomRec)
  close : Option Unit
deriving Repr

/-- Outcomes of every awaited primitive of scrapeBookingPrices, in source
order.  Calls inside try blocks whose catch swallows the error and that cannot
influence the returned value (see-availability clicks, cookie clicks, the
second screenshot, the selector race, the ensure-dates block) are omitted:
whatever they do, control always falls through to the next statement. -/
structure BookingEnv where
  launch : Option Unit                  -- chromium.launch, line 64, unguarded
  newPage : Option Unit                 -- browser.newPage, line 65, unguarded
  goto1 : Option Unit                   -- goto networkidle, line 79 (guarded)
  goto2 : Option Unit                   -- retry goto domcontentloaded, line 83 (guarded)
  closeAfterGoto2Fail : Option Unit     -- browser.close inside the goto2 catch, line 86
  waitSelector : Option Unit            -- waitForSelector, line 93 (guarded)
  waitLoadState : Option Unit           -- waitForLoadState in the catch, line 96, unguarded
  screenshot : Option Unit              -- page.screenshot, line 103, unguarded
  searchEval : Option (List Candidate)  -- candidate page.evaluate, line 108 (guarded)
  closeNoResult : Option Unit           -- browser.close when no usable result, line 145
  gotoHotel : Option Unit               -- goto chosenHref, line 150 (guarded)
  closeSearchFail : Option Unit         -- browser.close in the search catch, line 154
  primaryEval : Option (List RoomRec)   -- hprt-table page.evaluate, line 231, unguarded
  fallbackEval : Option (List RoomRec)  -- generic page.evaluate, line 315 (guarded)
  closeSuccess : Option Unit            -- browser.close before the day-0 return, line 397
  retry : ℕ → RetryDayEnv               -- per-day outcomes of the retry loop, lines 403-467
  closeFinal : Option Unit              -- final browser.close, line 470, unguarded

/-- Outcome of a try-guarded stage: fall through, return [] early, or throw. -/
inductive StageRes
  | proceed
  | earlyEmpty
  | thrown
deriving DecidableEq, Repr

/-- Navigation stage, lines 78-89: goto1; on throw goto2; on throw close the
browser (a throw here propagates) and return []. -/
def gotoPhase (env : BookingEnv) : StageRes :=
  match env.goto1 with
  | some _ => .proceed
  | none =>
    match env.goto2 with
    | some _ => .proceed
    | none =>
      match env.closeAfterGoto2Fail with
      | some _ => .earlyEmpty
      | none => .thrown

/-- Result-wait stage, lines 92-97: waitForSelector; on throw an unguarded
waitForLoadState whose own throw propagates. -/
def waitPhase (env : BookingEnv) : Bool :=
  match env.waitSelector with
  | some _ => true
  | none => env.waitLoadState.isSome

/-- The catch of the candidate-selection try, lines 152-156: close the browser
(a throw here propagates) and return []. -/
def searchCatch (env : BookingEnv) : StageRes :=
  match env.closeSearchFail with
  | some _ => .earlyEmpty
  | none => .thrown

/-- Candidate-selection stage, lines 106-156: evaluate the candidate list,
choose the best match, bail out with [] when there is none, else open it.
A browser.close throw inside the try is caught by the same catch, which
closes again. -/
def searchPhase (hotelName : String) (env : BookingEnv) : StageRes :=
  match env.searchEval with
  | none => searchCatch env
  | some cands =>
    match chooseHref hotelName cands with
    | none =>
      match env.closeNoResult with
      | some _ => .earlyEmpty
      | none => searchCatch env
    | some _ =>
      match env.gotoHotel with
      | some _ => .proceed
      | none => searchCatch env

/-- Extraction-strategy chain, lines 231-379: take the hprt-table result; only
when it is empty run the generic fallback evaluate, whose throw is swallowed
leaving the (empty) primary result in place.  The two results are never merged. -/
def bookingPipeline (primary : List RoomRec) (fallback : Option (List RoomRec)) :
    List RoomRec :=
  if primary.length = 0 then
    match fallback with
    | some l => l
    | none => primary
  else primary

/-- A price day entry: the checkin date is modelled as its day offset from
today (offset 0 = today), rooms as extracted. -/
structure DayEntry where
  offset : ℤ
  rooms : List RoomRec
deriving DecidableEq, Repr

/-- The date-shift recovery loop, lines 403-467, iterated over the shifts
[1,2,3,4,5]: each iteration re-navigates with the shifted date, re-extracts,
dedupes, and returns the first non-empty day; every throw inside the iteration
(including one from the pre-return browser.close, which then loses that day)
is caught and the loop continues.  After the loop the final unguarded
browser.close runs and [] is returned. -/
def retryLoop (renv : ℕ → RetryDayEnv) (closeFinal : Option Unit) :
    List ℕ → Except Unit (List DayEntry)
  | [] =>
    match closeFinal with
    | some _ => .ok []
    | none => .error ()
  | a :: rest =>
    match (renv a).goto with
    | none => retryLoop renv closeFinal rest
    | some _ =>
      match (renv a).eval with
      | none => retryLoop renv closeFinal rest
      | some rooms =>
        if (firstPriceByType rooms).isEmpty then retryLoop renv closeFinal rest
        else
          match (renv a).close with
          | some _ => .ok [⟨(a : ℤ), firstPriceByType rooms⟩]
          | none => retryLoop renv closeFinal rest

/-- The date shifts attempted by the recovery loop: for (add = 1; add <= 5; add++). -/
def retryAdds : List ℕ := [1, 2, 3, 4, 5]

/-- Body of scrapeBookingPrices (lines 61-472) with the value of the recovery
loop passed in, so that which parts of the environment influence the result is
explicit.  The result is ok l when the JS promise resolves with l, and
error () when it rejects. -/
def scrapeBookingPricesCore (hotelName : String) (env : BookingEnv)
    (retryResult : Except Unit (List DayEntry)) : Except Unit (List DayEntry) :=
  match env.launch with
  | none => .error ()
  | some _ =>
    match env.newPage with
    | none => .error ()
    | some _ =>
      match gotoPhase env with
      | .thrown => .error ()
      | .earlyEmpty => .ok []
      | .proceed =>
        if waitPhase env then
          match env.screenshot with
          | none => .error ()
          | some _ =>
            match searchPhase hotelName env with
            | .thrown => .error ()
            | .earlyEmpty => .ok []
            | .proceed =>
              match env.primaryEval with
              | none => .error ()
              | some primary =>
                if (firstPriceByType (bookingPipeline primary env.fallbackEval)).isEmpty then
                  retryResult
                else
                  match env.closeSuccess with
                  | none => .error ()
                  | some _ =>
                    .ok [⟨0, firstPriceByType (bookingPipeline primary env.fallbackEval)⟩]
        else .error ()

/-- Shallow embedding of scrapeBookingPrices: the core with the recovery loop
run over the shifts [1,2,3,4,5]. -/
def scrapeBookingPricesE (hotelName : String) (env : BookingEnv) :
    Except Unit (List DayEntry) :=
  scrapeBookingPricesCore hotelName env (retryLoop env.retry env.closeFinal retryAdds)

/-- The primitives of scrapeBookingPrices that run outside any try/catch (or
inside a catch block): when one of them throws, the exception escapes the
function.  This predicate says they all succeed. -/
def BookingUnguardedOk (env : BookingEnv) : Prop :=
  env.launch.isSome ∧ env.newPage.isSome ∧ env.closeAfterGoto2Fail.isSome ∧
    env.waitLoadState.isSome ∧ env.screenshot.isSome ∧ env.closeSearchFail.isSome ∧
    env.primaryEval.isSome ∧ env.closeSuccess.isSome ∧ env.closeFinal.isSome

instance (env : BookingEnv) : Decidable (BookingUnguardedOk env) := by
  unfold BookingUnguardedOk
  infer_instance

/-! ## Multi-day scraper scrapeMultipleDates
    (scripts/hotel_propio.js lines 475-593)

The per-range worker processRange is a sequential loop over its day offsets;
the scheduler launches every range worker at once via
Promise.all(dateRanges.map(processRange)) with no gating, and each worker pushes
its per-day entry directly into the shared results array as the day completes.
A run is therefore an arbitrary interleaving of the worker pushes: a schedule
is the list of worker indices in the order their pushes land, runSched produces
the shared results array for that schedule, and SchedOk states that the
schedule drains every worker (the join of Promise.all). -/

/-- Per-day primitive outcomes inside processRange: whether the goto succeeded
and, if so, what the extraction evaluate produced (none = it threw). -/
structure DayOutcome where
  gotoOk : Bool
  extract : Option (List RoomRec)

/-- One day of processRange, lines 512-584: on success push the deduped rooms,
on a caught navigation/extraction error push an empty rooms list for that date,
and always continue. -/
def dayEntry (env : ℤ → DayOutcome) (d : ℤ) : DayEntry :=
  let o := env d
  if o.gotoOk then
    match o.extract with
    | some rooms => ⟨d, firstPriceByType rooms⟩
    | none => ⟨d, []⟩
  else ⟨d, []⟩

/-- The entries a range worker pushes, in its strictly sequential day order
for (offset = start; offset <= end; offset++). -/
def blockEntries (env : ℤ → DayOutcome) (s e : ℤ) : List DayEntry :=
  (List.range (e + 1 - s).toNat).map (fun i : ℕ => dayEntry env (s + (i : ℤ)))

/-- The per-range pushed-entry lists of one run, ordered by assigned range. -/
def blockOuts (env : ℤ → DayOutcome) (days : ℤ) : List (List DayEntry) :=
  (dateRanges days).map (fun p => blockEntries env p.1 p.2)

/-- One run of the unsynchronized workers under a given schedule: at each step
the named worker pushes its next pending item into the shared results array
(a step naming a drained or unknown worker is skipped). -/
def runSched : List (List α) → List ℕ → List α
  | _, [] => []
  | rem, b :: σ =>
    match rem[b]? with
    | some (x :: xs) => x :: runSched (rem.set b xs) σ
    | some [] => runSched rem σ
    | none => runSched rem σ

/-- The pending items of every worker after a schedule. -/
def remAfter : List (List α) → List ℕ → List (List α)
  | rem, [] => rem
  | rem, b :: σ =>
    match rem[b]? with
    | some (_ :: xs) => remAfter (rem.set b xs) σ
    | some [] => remAfter rem σ
    | none => remAfter rem σ

/-- A complete run: the schedule drains every worker, which is exactly what
awaiting Promise.all guarantees before results is returned. -/
def SchedOk (rem : List (List α)) (σ : List ℕ) : Prop :=
  ∀ l ∈ remAfter rem σ, l = ([] : List α)

instance [DecidableEq α] (rem : List (List α)) (σ : List ℕ) :
    Decidable (SchedOk rem σ) :=
  List.decidableBAll (fun l => l = []) (remAfter rem σ)

/-- The full multi-day run, lines 504-592, after the search navigation has
produced the base hotel URL: the workers of the (up to 3) date ranges push
their per-day entries into the shared results array in schedule order, and
results is returned once Promise.all has drained every worker. -/
def scrapeMultipleDatesRun (env : ℤ → DayOutcome) (days : ℤ) (σ : List ℕ) :
    List DayEntry :=
  runSched (blockOuts env days) σ

/-! ## Page-session lifetimes inside one multi-day run (for the concurrency bound)

Each range worker opens its own page at entry (browser.newPage, line 510) and
closes it after its last day (p.close(), line 586).  The event list of a worker is
open, one step per day, close; a run interleaves these lists.  The number of
pages alive at a point of the run is the number of opens minus closes so far. -/

inductive SessEvent
  | openPage (b : ℕ)
  | dayStep (b : ℕ) (entry : DayEntry)
  | closePage (b : ℕ)
deriving DecidableEq, Repr

/-- The lifetime event list of the range worker with index b. -/
def blockTrace (env : ℤ → DayOutcome) (b : ℕ) (s e : ℤ) : List SessEvent :=
  SessEvent.openPage b :: ((blockEntries env s e).map (SessEvent.dayStep b) ++
    [SessEvent.closePage b])

/-- The event lists of the workers of one run, ordered by assigned range. -/
def sessionTraces (env : ℤ → DayOutcome) (days : ℤ) : List (List SessEvent) :=
  (dateRanges days).enum.map (fun ip => blockTrace env ip.1 ip.2.1 ip.2.2)

def maxActiveGo : List SessEvent → ℕ → ℕ → ℕ
  | [], _, mx => mx
  | SessEvent.openPage _ :: t, cur, mx => maxActiveGo t (cur + 1) (max mx (cur + 1))
  | SessEvent.closePage _ :: t, cur, mx => maxActiveGo t (cur - 1) mx
  | SessEvent.dayStep _ _ :: t, cur, mx => maxActiveGo t cur mx

/-- The peak number of simultaneously open page sessions along a run. -/
def maxActive (t : List SessEvent) : ℕ := maxActiveGo t 0 0

/-- The bound computed (and never used) on line 506:
CONCURRENT_TASKS = Math.min(concurrency, 5). -/
def CONCURRENT_TASKS (concurrency : ℕ) : ℕ := min concurrency 5

/-! ## Songkick event scraper scrapeSongkick
    (scripts/scrape_songkick.js lines 519-823)

The in-page extraction (the big page.evaluate, lines 656-757) is pure and is
modelled over a page value carrying the decoded JSON-LD event objects and the
event anchors found in the DOM.  The float haversine helper toKm is abstracted
as a rational-valued distance function parameter; the radius comparison and the
2-decimal rounding applied to its result are modelled exactly. -/

/-- An extracted event as returned to the caller (the JS objects omit the geo
fields entirely on the no-geo path; here they are none). -/
structure SkEvent where
  nombre : String
  fecha : String
  lugar : String
  enlace : String
  latitude : Option ℚ := none
  longitude : Option ℚ := none
  distance_km : Option ℚ := none
deriving DecidableEq, Repr

/-- One JSON-LD event object: name, startDate, location.name, url and the
optional location.geo coordinates (either may be individually absent). -/
structure LdItem where
  name : String
  startDate : String
  venueName : String
  url : String
  geoLat : Option ℚ := none
  geoLon : Option ℚ := none
deriving DecidableEq, Repr

/-- One event anchor with its nearby sibling data: the date read from the
datetime attribute (or text fallback), the strong title text, the venue text,
the href attribute and the per-item microformat geo. -/
structure AnchorItem where
  fecha : String
  nombre : String
  venue : String
  href : Option String := none
  geoLat : Option ℚ := none
  geoLon : Option ℚ := none
deriving DecidableEq, Repr

/-- The rendered page as seen by the extraction evaluate. -/
structure SkPage where
  ldEvents : List LdItem
  anchors : List AnchorItem
deriving Repr

def skBaseUrl : String := "https://www.songkick.com"

/-- JS: url.startsWith(http) ? url : BASE_URL + url. -/
def absLink (url : String) : String :=
  if strStartsWith url "http" then url else skBaseUrl ++ url

/-- JS: Math.round(distance * 100) / 100 (Math.round is floor of x + 1/2). -/
def roundKm2 (q : ℚ) : ℚ := ((⌊q * 100 + 1 / 2⌋ : ℤ) : ℚ) / 100

/-- Processing of one JSON-LD event (lines 681-698): with known geo include it
iff the distance does not exceed the radius, attaching the rounded distance;
without complete geo include it unconditionally with no geo fields. -/
def ldProcess (toKm : ℚ × ℚ → ℚ × ℚ → ℚ) (origin : ℚ × ℚ) (radiusKm : ℚ)
    (ev : LdItem) : Option SkEvent :=
  let date := strSlice ev.startDate 10
  let enlace := absLink ev.url
  match ev.geoLat, ev.geoLon with
  | some la, some lo =>
    let distance := toKm origin (la, lo)
    if distance ≤ radiusKm then
      some { nombre := ev.name, fecha := date, lugar := ev.venueName, enlace := enlace,
             latitude := some la, longitude := some lo,
             distance_km := some (roundKm2 distance) }
    else none
  | _, _ =>
    some { nombre := ev.name, fecha := date, lugar := ev.venueName, enlace := enlace }

/-- Processing of one event anchor (lines 708-754): same distance filter and
rounding when the microformat geo is complete, unconditional inclusion without
geo otherwise. -/
def anchorProcess (toKm : ℚ × ℚ → ℚ × ℚ → ℚ) (origin : ℚ × ℚ) (radiusKm : ℚ)
    (a : AnchorItem) : Option SkEvent :=
  let fecha := if a.fecha.length > 10 then strSlice a.fecha 10 else a.fecha
  let enlace :=
    match a.href with
    | some h => absLink h
    | none => ""
  match a.geoLat, a.geoLon with
  | some la, some lo =>
    let distance := toKm origin (la, lo)
    if radiusKm < distance then none
    else
      some { nombre := a.nombre, fecha := fecha, lugar := a.venue, enlace := enlace,
             latitude := some la, longitude := some lo,
             distance_km := some (roundKm2 distance) }
  | _, _ =>
    some { nombre := a.nombre, fecha := fecha, lugar := a.venue, enlace := enlace }

/-- The extraction evaluate, lines 656-757: the JSON-LD strategy runs first and
its result is returned whenever non-empty (if (ldEvents.length) return
ldEvents); only a page with zero JSON-LD events falls through to the anchor
strategy.  The two result lists are never concatenated. -/
def skExtract (toKm : ℚ × ℚ → ℚ × ℚ → ℚ) (origin : ℚ × ℚ) (radiusKm : ℚ)
    (pg : SkPage) : List SkEvent :=
  let ldEvents := pg.ldEvents.filterMap (ldProcess toKm origin radiusKm)
  if ldEvents.isEmpty then pg.anchors.filterMap (anchorProcess toKm origin radiusKm)
  else ldEvents

/-- Detail data found on an event page during enrichment (lines 775-805). -/
structure EnrichDetail where
  fecha : String
  lugar : String
  enlace : String
deriving Repr

/-- Primitive outcomes of one enrichment attempt (lines 770-811): open a page,
goto the event link, evaluate the detail, close, then fill the blanks; the whole
attempt is inside try {} catch {}, so any throw just leaves the event as-is. -/
structure EnrichEnv where
  newPage : Option Unit
  goto : Option Unit
  detail : Option EnrichDetail
  close : Option Unit

/-- needEnrichment filter: (!ev.fecha || !ev.lugar || !ev.enlace) && ev.enlace. -/
def needsEnrich (ev : SkEvent) : Bool :=
  (ev.fecha == "" || ev.lugar == "" || ev.enlace == "") && !(ev.enlace == "")

/-- One enrichment attempt: only when every primitive succeeds are the empty
fields replaced (ev.fecha = ev.fecha || detail.fecha, etc.). -/
def enrichOne (e : EnrichEnv) (ev : SkEvent) : SkEvent :=
  match e.newPage, e.goto, e.detail, e.close with
  | some _, some _, some d, some _ =>
    { ev with
      fecha := if ev.fecha = "" then d.fecha else ev.fecha,
      lugar := if ev.lugar = "" then d.lugar else ev.lugar,
      enlace := if ev.enlace = "" then d.enlace else ev.enlace }
  | _, _, _, _ => ev

/-- The enrichment phase (lines 759-812): the first 15 events needing
enrichment are attempted (in bounded batches, which cannot change the result
since each attempt touches only its own event); all other events pass through. -/
def enrichPhase (env : ℕ → EnrichEnv) : List SkEvent → ℕ → List SkEvent
  | [], _ => []
  | ev :: rest, k =>
    if needsEnrich ev ∧ k < 15 then enrichOne (env k) ev :: enrichPhase env rest (k + 1)
    else ev :: enrichPhase env rest k

/-- Primitive outcomes of scrapeSongkick in source order; steps wrapped in
their own try/catch with an empty catch (cookie clicks, the networkidle wait,
the selector waits) cannot affect control flow and are omitted. -/
structure SkEnv where
  launch : Option Unit          -- chromium.launch, line 527
  newContext : Option Unit      -- browser.newContext, line 534
  newPage : Option Unit         -- context.newPage, line 542
  route : Option Unit           -- context.route, line 544
  goto : Option Unit            -- page.goto, line 558
  waitT : Option Unit           -- page.waitForTimeout(2000), line 613
  scroll : ℕ → Option Unit      -- the 12 scroll/pause iterations, lines 617-621
  content : Option String       -- page.content(), line 647
  extract : Option SkPage       -- the extraction page.evaluate, line 656
  enrich : ℕ → EnrichEnv        -- per-event enrichment outcomes, lines 769-812
  closeShort : Option Unit      -- browser.close on the short-content path, line 650
  closeEnd : Option Unit        -- final browser.close, line 816

/-- The fixed 12-step scroll loop: each iteration is an unguarded evaluate plus
wait, so the phase fails as soon as one iteration throws. -/
def scrollPhase (f : ℕ → Option Unit) : Option Unit :=
  (List.range 12).foldl (fun acc i => acc.bind fun _ => f i) (some ())

/-- The try-protected body of scrapeSongkick. -/
def skBody (toKm : ℚ × ℚ → ℚ × ℚ → ℚ) (origin : ℚ × ℚ) (radiusKm : ℚ)
    (env : SkEnv) : Except Unit (List SkEvent) :=
  match env.launch with
  | none => .error ()
  | some _ =>
    match env.newContext with
    | none => .error ()
    | some _ =>
      match env.newPage with
      | none => .error ()
      | some _ =>
        match env.route with
        | none => .error ()
        | some _ =>
          match env.goto with
          | none => .error ()
          | some _ =>
            match env.waitT with
            | none => .error ()
            | some _ =>
              match scrollPhase env.scroll with
              | none => .error ()
              | some _ =>
                match env.content with
                | none => .error ()
                | some html =>
                  if html.length < 1000 then
                    match env.closeShort with
                    | none => .error ()
                    | some _ => .ok []
                  else
                    match env.extract with
                    | none => .error ()
                    | some pg =>
                      let events := skExtract toKm origin radiusKm pg
                      let events := enrichPhase env.enrich events 0
                      match env.closeEnd with
                      | none => .error ()
                      | some _ => .ok events

/-- Shallow embedding of scrapeSongkick: the entire body sits in one try whose
catch closes the browser best-effort and returns [] (lines 818-822), so every
rejection of a body primitive resolves to the empty list. -/
def scrapeSongkickE (toKm : ℚ × ℚ → ℚ × ℚ → ℚ) (origin : ℚ × ℚ) (radiusKm : ℚ)
    (env : SkEnv) : Except Unit (List SkEvent) :=
  match skBody toKm origin radiusKm env with
  | .ok l => .ok l
  | .error _ => .ok []

/-! ## Ticketmaster EventsFetcher (scripts/scrapeo_geo.js)

getEvents builds one Discovery-API query and maps the response events;
getAllEvents loops calling getEvents with a fixed page size of 200 and
identical arguments every time (the page counter is never put into the
request), breaking on an empty page, a short page, or the page > 50 safety
counter.  The provider function gives the response of the i-th request. -/

/-- One event in a Ticketmaster response, as mapped by getEvents. -/
structure TmEvent where
  name : String
  url : String
  date : String
  time : String
  venue : String
  genre : String
  price_range : String
deriving DecidableEq, Repr

/-- The URLSearchParams built by getEvents, in insertion order (no page
parameter exists).  The date bounds are passed as preformatted strings. -/
def tmQuery (apiKey : String) (city : Option String) (startDT endDT : String)
    (limit : ℕ) (latlong : Option (ℚ × ℚ)) (radius : ℚ)
    (countryCode : Option String) : List (String × String) :=
  [("apikey", apiKey), ("startDateTime", startDT), ("endDateTime", endDT),
    ("sort", "date,asc"), ("size", toString limit)] ++
  (match countryCode with
   | some cc => [("countryCode", cc)]
   | none => []) ++
  (match latlong with
   | some ll => [("latlong", toString ll.1 ++ "," ++ toString ll.2),
       ("radius", toString radius), ("unit", "km")]
   | none =>
     match city with
     | some c => [("city", c)]
     | none => [])

/-- The Ticketmaster maximum page size used by getAllEvents. -/
def tmPageSize : ℕ := 200

/-- The query issued on the i-th iteration of getAllEvents: the call
this.getEvents({city, daysAhead, limit: pageSize, latitude, longitude, radius,
countryCode}) passes the same arguments every time, so the iteration index does
not appear on the right-hand side. -/
def getAllQueryAt (apiKey : String) (city : Option String) (startDT endDT : String)
    (latlong : Option (ℚ × ℚ)) (radius : ℚ) (countryCode : Option String)
    (_i : ℕ) : List (String × String) :=
  tmQuery apiKey city startDT endDT tmPageSize latlong radius countryCode

def getAllLoop (provider : ℕ → List TmEvent) :
    ℕ → ℕ → ℕ → List TmEvent → Option (List TmEvent × ℕ)
  | 0, _, _, _ => none
  | fuel + 1, page, calls, acc =>
    let events := provider calls
    if events.length = 0 then some (acc, calls + 1)
    else
      let acc2 := acc ++ events
      if events.length < tmPageSize then some (acc2, calls + 1)
      else if page + 1 > 50 then some (acc2, calls + 1)
      else getAllLoop provider fuel (page + 1) (calls + 1) acc2

/-- getAllEvents: allEvents = [], page = 0, then the loop. -/
def getAllEventsM (provider : ℕ → List TmEvent) : Option (List TmEvent × ℕ) :=
  getAllLoop provider 52 0 0 []

/-! ## Properties of the recovery loop and of the booking outputs -/

/-- A retry day that yields zero records: navigation threw, extraction threw,
or extraction returned rooms that dedupe to nothing. -/
def retryDayYieldsEmpty (d : RetryDayEnv) : Prop :=
  d.goto = none ∨ d.eval = none ∨
    ∃ rooms, d.eval = some rooms ∧ firstPriceByType rooms = []

/-! ## Concrete environments used by counterexamples and witnesses -/

/-- A booking environment whose browser launch throws and in which every other
primitive would succeed. -/
def bookingEnvLaunchFail : BookingEnv where
  launch := none
  newPage := some ()
  goto1 := some ()
  goto2 := some ()
  closeAfterGoto2Fail := some ()
  waitSelector := some ()
  waitLoadState := some ()
  screenshot := some ()
  searchEval := some []
  closeNoResult := some ()
  gotoHotel := some ()
  closeSearchFail := some ()
  primaryEval := some []
  fallbackEval := some []
  closeSuccess := some ()
  retry := fun _ => ⟨some (), some [], some ()⟩
  closeFinal := some ()

/-- A booking environment in which every primitive succeeds and every
extraction is empty. -/
def bookingEnvAllOk : BookingEnv :=
  { bookingEnvLaunchFail with launch := some () }

/-- A songkick environment whose browser launch throws. -/
def skEnvLaunchFail : SkEnv where
  launch := none
  newContext := some ()
  newPage := some ()
  route := some ()
  goto := some ()
  waitT := some ()
  scroll := fun _ => some ()
  content := some ""
  extract := some ⟨[], []⟩
  enrich := fun _ => ⟨some (), some (), some ⟨"", "", ""⟩, some ()⟩
  closeShort := some ()
  closeEnd := some ()

/-- Day outcomes in which every navigation fails. -/
def c2DayEnv : ℤ → DayOutcome := fun _ => ⟨false, none⟩

/-- The worker session traces of a 90-day run. -/
def c2Traces : List (List SessEvent) := sessionTraces c2DayEnv 90

/-- A schedule that opens all three pages before any day completes (the three
newPage awaits are all issued before any worker proceeds), then drains the
workers. -/
def c2Sched : List ℕ :=
  [0, 1, 2] ++ (List.replicate 32 0 ++ (List.replicate 31 1 ++ List.replicate 30 2))

/-- Day outcomes in which every day succeeds with zero rooms. -/
def c3DayEnv : ℤ → DayOutcome := fun _ => ⟨true, some []⟩

/-- The per-range entry lists of a 32-day run (two ranges: days 0-30 and 31). -/
def c3Blocks : List (List DayEntry) := blockOuts c3DayEnv 32

/-- Schedule in which the first worker finishes before the second pushes. -/
def c3SchedA : List ℕ := List.replicate 31 0 ++ [1]

/-- Schedule in which the second worker pushes its single day first. -/
def c3SchedB : List ℕ := 1 :: List.replicate 31 0

/-- Booking environment for the C7 witness: reachable hotel page, empty
initial extraction, retry day 1 empty and retry day 2 non-empty. -/
def c7Env : BookingEnv :=
  { bookingEnvAllOk with
    searchEval := some [⟨"Grand Hotel Tijuana",
      "https://www.booking.com/hotel/mx/gran-hotel-tijuana.html"⟩],
    retry := fun a =>
      if a = 1 then ⟨some (), some [], some ()⟩
      else ⟨some (), some [⟨"Suite", "MXN $1,500", none⟩], some ()⟩ }

/-- The constant distance function used by the C8 counterexample (a possible
value of the abstracted haversine helper: 10.006 km). -/
def toKmConst : ℚ × ℚ → ℚ × ℚ → ℚ := fun _ _ => 5003 / 500

/-- A configured radius of 10.006 km. -/
def c8Radius : ℚ := 5003 / 500

/-- A JSON-LD event with known geo for the C8 counterexample. -/
def c8Item : LdItem :=
  { name := "A", startDate := "2025-09-01T20:00:00", venueName := "V",
    url := "/concerts/1", geoLat := some 1, geoLon := some 1 }

/-- The record the pipeline produces for c8Item under toKmConst. -/
def c8Out : SkEvent :=
  { nombre := "A", fecha := "2025-09-01", lugar := "V",
    enlace := "https://www.songkick.com/concerts/1", latitude := some 1,
    longitude := some 1, distance_km := some (roundKm2 c8Radius) }

/-- A JSON-LD event with known geo for the C8 witness. -/
def c8WitItem : LdItem :=
  { name := "B", startDate := "2025-10-01", venueName := "W",
    url := "https://www.songkick.com/concerts/2", geoLat := some 1, geoLon := some 1 }

/-- Day outcomes for the C9 witness: day 1 fails, every other day succeeds
with zero rooms. -/
def c9DayEnv : ℤ → DayOutcome := fun d =>
  if d = 1 then ⟨false, none⟩ else ⟨true, some []⟩

end Arkus

namespace Arkus

/-! ## Lemmas about the embedded definitions -/

theorem contains_mem {seen : List String} {k : String} :
    seen.contains k = true ↔ k ∈ seen := List.elem_iff

theorem firstPriceGo_mem {seen : List String} {l : List RoomRec} {r : RoomRec}
    (h : r ∈ firstPriceGo seen l) :
    roomKey r ∉ seen ∧ roomKey r ≠ "" ∧
      l.find? (fun x => roomKey x == roomKey r) = some r := by
  induction l generalizing seen with
  | nil => simp [firstPriceGo] at h
  | cons a as ih =>
    simp only [firstPriceGo] at h
    by_cases hc : (roomKey a == "" || seen.contains (roomKey a)) = true
    · rw [if_pos hc] at h
      obtain ⟨hns, hne, hfind⟩ := ih h
      refine ⟨hns, hne, ?_⟩
      rw [List.find?_cons_of_neg, hfind]
      simp only [beq_iff_eq]
      intro hk
      rcases Bool.or_eq_true _ _ |>.mp hc with h1 | h2
      · exact hne (hk ▸ (beq_iff_eq.mp h1))
      · exact hns (hk ▸ (contains_mem.mp h2))
    · rw [if_neg hc] at h
      push_neg at hc
      have hc' : ¬(roomKey a == "") = true ∧ ¬(seen.contains (roomKey a)) = true := by
        simpa [Bool.or_eq_true, not_or] using hc
      rcases List.mem_cons.mp h with rfl | htail
      · refine ⟨fun hmem => hc'.2 (contains_mem.mpr hmem),
          fun he => hc'.1 (beq_iff_eq.mpr he), ?_⟩
        rw [List.find?_cons_of_pos]
        simp
      · obtain ⟨hns, hne, hfind⟩ := ih htail
        have hnk : roomKey a ≠ roomKey r := by
          intro hk
          exact hns (hk ▸ List.mem_cons_self _ _)
        refine ⟨fun hmem => hns (List.mem_cons_of_mem _ hmem), hne, ?_⟩
        rw [List.find?_cons_of_neg, hfind]
        simpa using hnk

theorem firstPriceGo_keys_nodup (l : List RoomRec) (seen : List String) :
    ((firstPriceGo seen l).map roomKey).Nodup ∧
      ∀ r ∈ firstPriceGo seen l, roomKey r ∉ seen := by
  induction l generalizing seen with
  | nil => simp [firstPriceGo]
  | cons a as ih =>
    simp only [firstPriceGo]
    by_cases hc : (roomKey a == "" || seen.contains (roomKey a)) = true
    · rw [if_pos hc]
      exact ih seen
    · rw [if_neg hc]
      push_neg at hc
      have hc' : ¬(roomKey a == "") = true ∧ ¬(seen.contains (roomKey a)) = true := by
        simpa [Bool.or_eq_true, not_or] using hc
      obtain ⟨hnd, hnot⟩ := ih (roomKey a :: seen)
      constructor
      · simp only [List.map_cons, List.nodup_cons]
        refine ⟨?_, hnd⟩
        intro hmem
        obtain ⟨r, hr, hkr⟩ := List.mem_map.mp hmem
        exact hnot r hr (hkr ▸ List.mem_cons_self _ _)
      · intro r hr
        rcases List.mem_cons.mp hr with rfl | htail
        · exact fun hmem => hc'.2 (contains_mem.mpr hmem)
        · exact fun hmem => hnot r htail (List.mem_cons_of_mem _ hmem)

theorem firstPriceByType_keys_nodup (l : List RoomRec) :
    ((firstPriceByType l).map roomKey).Nodup :=
  (firstPriceGo_keys_nodup l []).1

theorem firstPriceByType_first_wins {l : List RoomRec} {r : RoomRec}
    (h : r ∈ firstPriceByType l) :
    l.find? (fun x => roomKey x == roomKey r) = some r :=
  (firstPriceGo_mem h).2.2

theorem firstPriceGo_covers {l : List RoomRec} {r : RoomRec} (seen : List String)
    (hr : r ∈ l) (hk : roomKey r ≠ "") (hs : roomKey r ∉ seen) :
    ∃ r2 ∈ firstPriceGo seen l, roomKey r2 = roomKey r := by
  induction l generalizing seen with
  | nil => simp at hr
  | cons a as ih =>
    simp only [firstPriceGo]
    by_cases hc : (roomKey a == "" || seen.contains (roomKey a)) = true
    · rw [if_pos hc]
      rcases List.mem_cons.mp hr with rfl | htail
      · exfalso
        rcases Bool.or_eq_true _ _ |>.mp hc with h1 | h2
        · exact hk (beq_iff_eq.mp h1)
        · exact hs (contains_mem.mp h2)
      · exact ih seen htail hs
    · rw [if_neg hc]
      rcases List.mem_cons.mp hr with rfl | htail
      · exact ⟨r, List.mem_cons_self _ _, rfl⟩
      · by_cases heq : roomKey a = roomKey r
        · exact ⟨a, List.mem_cons_self _ _, heq⟩
        · have : roomKey r ∉ roomKey a :: seen := by
            intro hmem
            rcases List.mem_cons.mp hmem with h1 | h2
            · exact heq h1.symm
            · exact hs h2
          obtain ⟨r2, hr2, hk2⟩ := ih (roomKey a :: seen) htail this
          exact ⟨r2, List.mem_cons_of_mem _ hr2, hk2⟩

theorem dateRanges_eq_low {days : ℤ} (h1 : 1 ≤ days) (h2 : days ≤ 31) :
    dateRanges days = [(0, days - 1)] := by
  have e1 : min (30 : ℤ) (days - 1) = days - 1 := min_eq_right (by omega)
  have e2 : min (60 : ℤ) (days - 1) = days - 1 := min_eq_right (by omega)
  have e3 : min (90 : ℤ) (days - 1) = days - 1 := min_eq_right (by omega)
  simp only [dateRanges, e1, e2, e3, List.filter]
  rw [decide_eq_true (by omega : (0 : ℤ) ≤ days - 1)]
  rw [decide_eq_false (by omega : ¬(31 : ℤ) ≤ days - 1)]
  rw [decide_eq_false (by omega : ¬(61 : ℤ) ≤ days - 1)]

theorem dateRanges_eq_mid {days : ℤ} (h1 : 32 ≤ days) (h2 : days ≤ 61) :
    dateRanges days = [(0, 30), (31, days - 1)] := by
  have e1 : min (30 : ℤ) (days - 1) = 30 := min_eq_left (by omega)
  have e2 : min (60 : ℤ) (days - 1) = days - 1 := min_eq_right (by omega)
  have e3 : min (90 : ℤ) (days - 1) = days - 1 := min_eq_right (by omega)
  simp only [dateRanges, e1, e2, e3, List.filter]
  rw [decide_eq_true (by omega : (0 : ℤ) ≤ 30)]
  rw [decide_eq_true (by omega : (31 : ℤ) ≤ days - 1)]
  rw [decide_eq_false (by omega : ¬(61 : ℤ) ≤ days - 1)]

theorem dateRanges_eq_high {days : ℤ} (h1 : 62 ≤ days) (h2 : days ≤ 91) :
    dateRanges days = [(0, 30), (31, 60), (61, days - 1)] := by
  have e1 : min (30 : ℤ) (days - 1) = 30 := min_eq_left (by omega)
  have e2 : min (60 : ℤ) (days - 1) = 60 := min_eq_left (by omega)
  have e3 : min (90 : ℤ) (days - 1) = days - 1 := min_eq_right (by omega)
  simp only [dateRanges, e1, e2, e3, List.filter]
  rw [decide_eq_true (by omega : (0 : ℤ) ≤ 30)]
  rw [decide_eq_true (by omega : (31 : ℤ) ≤ 60)]
  rw [decide_eq_true (by omega : (61 : ℤ) ≤ days - 1)]

theorem retryLoop_isOk (renv : ℕ → RetryDayEnv) (closeFinal : Option Unit)
    (hc : closeFinal.isSome) (l : List ℕ) :
    ∃ out, retryLoop renv closeFinal l = .ok out := by
  induction l with
  | nil =>
    obtain ⟨u, hu⟩ := Option.isSome_iff_exists.mp hc
    exact ⟨[], by simp [retryLoop, hu]⟩
  | cons a rest ih =>
    simp only [retryLoop]
    rcases (renv a).goto with _ | g
    · exact ih
    · rcases (renv a).eval with _ | rooms
      · exact ih
      · simp only
        by_cases he : (firstPriceByType rooms).isEmpty
        · rw [if_pos he]
          exact ih
        · rw [if_neg he]
          rcases (renv a).close with _ | c
          · exact ih
          · exact ⟨_, rfl⟩

theorem scrapeBookingPricesE_isOk (hotelName : String) (env : BookingEnv)
    (h : BookingUnguardedOk env) :
    ∃ out, scrapeBookingPricesE hotelName env = .ok out := by
  obtain ⟨h1, h2, h3, h4, h5, h6, h7, h8, h9⟩ := h
  obtain ⟨u1, hu1⟩ := Option.isSome_iff_exists.mp h1
  obtain ⟨u2, hu2⟩ := Option.isSome_iff_exists.mp h2
  obtain ⟨u5, hu5⟩ := Option.isSome_iff_exists.mp h5
  obtain ⟨p, hp⟩ := Option.isSome_iff_exists.mp h7
  obtain ⟨u8, hu8⟩ := Option.isSome_iff_exists.mp h8
  simp only [scrapeBookingPricesE, scrapeBookingPricesCore, hu1, hu2, hu5, hp, hu8]
  have hgoto : gotoPhase env ≠ .thrown := by
    unfold gotoPhase
    rcases env.goto1 with _ | g1
    · rcases env.goto2 with _ | g2
      · obtain ⟨u3, hu3⟩ := Option.isSome_iff_exists.mp h3
        simp [hu3]
      · simp
    · simp
  have hsearch : searchPhase hotelName env ≠ .thrown := by
    have hcatch : searchCatch env = .earlyEmpty := by
      obtain ⟨u6, hu6⟩ := Option.isSome_iff_exists.mp h6
      simp [searchCatch, hu6]
    unfold searchPhase
    rcases env.searchEval with _ | cands
    · simp [hcatch]
    · simp only
      rcases chooseHref hotelName cands with _ | href
      · rcases env.closeNoResult with _ | c
        · simp [hcatch]
        · simp
      · rcases env.gotoHotel with _ | g
        · simp [hcatch]
        · simp
  have hwait : waitPhase env = true := by
    unfold waitPhase
    rcases env.waitSelector with _ | w
    · exact h4
    · rfl
  rw [hwait]
  simp only [if_true]
  rcases hg : gotoPhase env with _ | _ | _
  · simp only
    rcases hs : searchPhase hotelName env with _ | _ | _
    · simp only
      by_cases hd : (firstPriceByType (bookingPipeline p env.fallbackEval)).isEmpty
      · rw [if_pos hd]
        exact retryLoop_isOk env.retry env.closeFinal h9 retryAdds
      · rw [if_neg hd]
        exact ⟨_, rfl⟩
    · exact ⟨[], rfl⟩
    · exact absurd hs hsearch
  · exact ⟨[], rfl⟩
  · exact absurd hg hgoto

theorem join_set_perm {rem : List (List α)} {b : ℕ} {x : α} {xs : List α}
    (h : rem[b]? = some (x :: xs)) :
    rem.flatten.Perm (x :: (rem.set b xs).flatten) := by
  induction rem generalizing b with
  | nil => simp at h
  | cons hd t ih =>
    cases b with
    | zero =>
      rw [List.getElem?_cons_zero, Option.some_inj] at h
      subst h
      simp [List.flatten_cons]
    | succ b =>
      rw [List.getElem?_cons_succ] at h
      have hperm := ih h
      simp only [List.set_cons_succ, List.flatten_cons]
      exact (hperm.append_left hd).trans List.perm_middle

theorem runSched_perm (σ : List ℕ) (rem : List (List α)) (h : SchedOk rem σ) :
    (runSched rem σ).Perm rem.flatten := by
  induction σ generalizing rem with
  | nil =>
    have : rem.flatten = [] := by
      rw [List.flatten_eq_nil_iff]
      exact h
    simp [runSched, this]
  | cons b σ ih =>
    simp only [runSched]
    rcases hb : rem[b]? with _ | l
    · exact ih rem (by simpa only [SchedOk, remAfter, hb] using h)
    · rcases l with _ | ⟨x, xs⟩
      · exact ih rem (by simpa only [SchedOk, remAfter, hb] using h)
      · have hok : SchedOk (rem.set b xs) σ := by
          simpa only [SchedOk, remAfter, hb] using h
        exact ((ih _ hok).cons x).trans (join_set_perm hb).symm

theorem runSched_sublist (σ : List ℕ) (rem : List (List α)) (h : SchedOk rem σ)
    {b : ℕ} {l : List α} (hb : rem[b]? = some l) :
    l.Sublist (runSched rem σ) := by
  induction σ generalizing rem l with
  | nil =>
    have : l = [] := h l (List.getElem?_mem hb)
    simp [this]
  | cons a σ ih =>
    simp only [runSched]
    rcases ha : rem[a]? with _ | la
    · exact ih rem (by simpa only [SchedOk, remAfter, ha] using h) hb
    · rcases la with _ | ⟨x, xs⟩
      · exact ih rem (by simpa only [SchedOk, remAfter, ha] using h) hb
      · have hok : SchedOk (rem.set a xs) σ := by
          simpa only [SchedOk, remAfter, ha] using h
        by_cases hab : a = b
        · subst hab
          rw [ha, Option.some_inj] at hb
          subst hb
          have hlen : a < rem.length := (List.getElem?_eq_some_iff.mp ha).1
          have hset : (rem.set a xs)[a]? = some xs := List.getElem?_set_self hlen
          exact (ih _ hok hset).cons₂ x
        · have hset : (rem.set a xs)[b]? = some l := by
            rw [List.getElem?_set_ne hab, hb]
          exact (ih _ hok hset).cons x

theorem dayEntry_offset (env : ℤ → DayOutcome) (d : ℤ) : (dayEntry env d).offset = d := by
  unfold dayEntry
  rcases hg : (env d).gotoOk <;> rcases hx : (env d).extract <;> simp [hg, hx]

theorem dayEntry_failure (env : ℤ → DayOutcome) (d : ℤ)
    (h : (env d).gotoOk = false ∨ (env d).extract = none) :
    dayEntry env d = ⟨d, []⟩ := by
  unfold dayEntry
  rcases h with h | h
  · simp [h]
  · rcases hg : (env d).gotoOk <;> simp [hg, h]

theorem countP_range_shift (s d : ℤ) (n : ℕ) :
    (List.range n).countP (fun i : ℕ => decide (s + (i : ℤ) = d)) =
      if s ≤ d ∧ d < s + (n : ℤ) then 1 else 0 := by
  induction n with
  | zero =>
    rw [List.range_zero, List.countP_nil, if_neg (by push_cast; omega)]
  | succ n ih =>
    rw [List.range_succ, List.countP_append, ih, List.countP_cons, List.countP_nil]
    simp only [decide_eq_true_eq]
    split_ifs <;> push_cast at * <;> omega

theorem countP_blockEntries (env : ℤ → DayOutcome) (s e d : ℤ) :
    (blockEntries env s e).countP (fun x => decide (x.offset = d)) =
      if s ≤ d ∧ d ≤ e then 1 else 0 := by
  unfold blockEntries
  rw [List.countP_map]
  have hpt : ((fun x => decide (DayEntry.offset x = d)) ∘
        fun i : ℕ => dayEntry env (s + (i : ℤ))) =
      fun i : ℕ => decide (s + (i : ℤ) = d) := by
    funext i
    simp [Function.comp, dayEntry_offset]
  rw [hpt, countP_range_shift]
  rcases le_or_lt s e with hse | hse
  · have he : s + (((e + 1 - s).toNat : ℤ)) = e + 1 := by omega
    rw [he]
    by_cases hc : s ≤ d ∧ d ≤ e
    · rw [if_pos (by omega), if_pos hc]
    · rw [if_neg (by omega), if_neg hc]
  · have he : (((e + 1 - s).toNat : ℤ)) = 0 := by omega
    rw [he, if_neg (by omega), if_neg (by omega)]

theorem blockEntries_sorted (env : ℤ → DayOutcome) (s e : ℤ) :
    (blockEntries env s e).Pairwise (fun x y => x.offset < y.offset) := by
  unfold blockEntries
  rw [List.pairwise_map]
  refine (List.pairwise_lt_range _).imp ?_
  intro i j hij
  rw [dayEntry_offset, dayEntry_offset]
  omega

theorem multiDay_countP (env : ℤ → DayOutcome) (days : ℤ) (σ : List ℕ)
    (h1 : 1 ≤ days) (h2 : days ≤ 90) (hσ : SchedOk (blockOuts env days) σ)
    (d : ℤ) :
    (scrapeMultipleDatesRun env days σ).countP (fun x => decide (x.offset = d)) =
      if 0 ≤ d ∧ d < days then 1 else 0 := by
  unfold scrapeMultipleDatesRun
  rw [(runSched_perm σ _ hσ).countP_eq, List.countP_flatten]
  unfold blockOuts
  rw [List.map_map]
  rcases lt_or_le days 32 with hA | hA
  · rw [dateRanges_eq_low h1 (by omega)]
    simp only [List.map_cons, List.map_nil, List.sum_cons, List.sum_nil, Function.comp]
    rw [countP_blockEntries]
    by_cases hc : 0 ≤ d ∧ d < days
    · rw [if_pos (by omega), if_pos hc]
      omega
    · rw [if_neg (by omega), if_neg hc]
      omega
  · rcases lt_or_le days 62 with hB | hB
    · rw [dateRanges_eq_mid hA (by omega)]
      simp only [List.map_cons, List.map_nil, List.sum_cons, List.sum_nil, Function.comp]
      rw [countP_blockEntries, countP_blockEntries]
      by_cases hc : 0 ≤ d ∧ d < days
      · by_cases h30 : d ≤ 30
        · rw [if_pos (by omega), if_neg (by omega), if_pos hc]
          omega
        · rw [if_neg (by omega), if_pos (by omega), if_pos hc]
          omega
      · rw [if_neg (by omega), if_neg (by omega), if_neg hc]
        omega
    · rw [dateRanges_eq_high hB (by omega)]
      simp only [List.map_cons, List.map_nil, List.sum_cons, List.sum_nil, Function.comp]
      rw [countP_blockEntries, countP_blockEntries, countP_blockEntries]
      by_cases hc : 0 ≤ d ∧ d < days
      · by_cases h30 : d ≤ 30
        · rw [if_pos (by omega), if_neg (by omega), if_neg (by omega), if_pos hc]
          omega
        · by_cases h60 : d ≤ 60
          · rw [if_neg (by omega), if_pos (by omega), if_neg (by omega), if_pos hc]
            omega
          · rw [if_neg (by omega), if_neg (by omega), if_pos (by omega), if_pos hc]
            omega
      · rw [if_neg (by omega), if_neg (by omega), if_neg (by omega), if_neg hc]
        omega

theorem scrapeSongkickE_isOk (toKm : ℚ × ℚ → ℚ × ℚ → ℚ) (origin : ℚ × ℚ)
    (radiusKm : ℚ) (env : SkEnv) :
    ∃ l, scrapeSongkickE toKm origin radiusKm env = .ok l := by
  unfold scrapeSongkickE
  rcases h : skBody toKm origin radiusKm env with e | l
  · exact ⟨[], rfl⟩
  · exact ⟨l, rfl⟩

theorem scrapeSongkickE_launchFail (toKm : ℚ × ℚ → ℚ × ℚ → ℚ) (origin : ℚ × ℚ)
    (radiusKm : ℚ) (env : SkEnv) (h : env.launch = none) :
    scrapeSongkickE toKm origin radiusKm env = .ok [] := by
  unfold scrapeSongkickE skBody
  rw [h]

/-- The while(true) pagination loop of getAllEvents, with explicit fuel:
none signals that the fuel ran out before the loop exited (the termination
theorem shows fuel 52 always suffices).  The second component of the result is
the number of getEvents calls made. -/

theorem getAllLoop_isSome (provider : ℕ → List TmEvent) :
    ∀ (fuel page calls : ℕ) (acc : List TmEvent), 50 - page < fuel →
      ∃ r, getAllLoop provider fuel page calls acc = some r := by
  intro fuel
  induction fuel with
  | zero =>
    intro page calls acc h
    omega
  | succ fuel ih =>
    intro page calls acc h
    simp only [getAllLoop]
    by_cases h0 : (provider calls).length = 0
    · rw [if_pos h0]
      exact ⟨_, rfl⟩
    · rw [if_neg h0]
      by_cases hs : (provider calls).length < tmPageSize
      · rw [if_pos hs]
        exact ⟨_, rfl⟩
      · rw [if_neg hs]
        by_cases hp : page + 1 > 50
        · rw [if_pos hp]
          exact ⟨_, rfl⟩
        · rw [if_neg hp]
          exact ih (page + 1) (calls + 1) _ (by omega)

theorem getAllLoop_calls_le (provider : ℕ → List TmEvent) :
    ∀ (fuel page calls : ℕ) (acc : List TmEvent) (r : List TmEvent × ℕ),
      getAllLoop provider fuel page calls acc = some r → r.2 ≤ calls + fuel := by
  intro fuel
  induction fuel with
  | zero =>
    intro page calls acc r h
    simp [getAllLoop] at h
  | succ fuel ih =>
    intro page calls acc r h
    simp only [getAllLoop] at h
    by_cases h0 : (provider calls).length = 0
    · rw [if_pos h0, Option.some_inj] at h
      subst h
      simp only
      omega
    · rw [if_neg h0] at h
      by_cases hs : (provider calls).length < tmPageSize
      · rw [if_pos hs, Option.some_inj] at h
        subst h
        simp only
        omega
      · rw [if_neg hs] at h
        by_cases hp : page + 1 > 50
        · rw [if_pos hp, Option.some_inj] at h
          subst h
          simp only
          omega
        · rw [if_neg hp] at h
          have := ih (page + 1) (calls + 1) _ r h
          omega

theorem retryLoop_congr (f g : ℕ → RetryDayEnv) (cf : Option Unit) :
    ∀ l : List ℕ, (∀ a ∈ l, f a = g a) → retryLoop f cf l = retryLoop g cf l := by
  intro l
  induction l with
  | nil => intro _; rfl
  | cons a rest ih =>
    intro h
    have hrest := ih (fun b hb => h b (List.mem_cons_of_mem a hb))
    unfold retryLoop
    rw [h a (List.mem_cons_self a rest)]
    rcases hg : (g a).goto with _ | _ <;> simp only [hg]
    · exact hrest
    · rcases he : (g a).eval with _ | rooms <;> simp only [he]
      · exact hrest
      · by_cases hemp : (firstPriceByType rooms).isEmpty
        · rw [if_pos hemp, if_pos hemp]
          exact hrest
        · rw [if_neg hemp, if_neg hemp]
          rcases hc : (g a).close with _ | _ <;> simp only [hc]
          exact hrest

theorem retryLoop_first_success (f : ℕ → RetryDayEnv) (cf : Option Unit)
    (l1 : List ℕ) (l2 : List ℕ) (a : ℕ) (rooms : List RoomRec)
    (hprev : ∀ b ∈ l1, retryDayYieldsEmpty (f b))
    (hg : (f a).goto = some ()) (he : (f a).eval = some rooms)
    (hne : firstPriceByType rooms ≠ []) (hc : (f a).close = some ()) :
    retryLoop f cf (l1 ++ a :: l2) = .ok [⟨(a : ℤ), firstPriceByType rooms⟩] := by
  induction l1 with
  | nil =>
    rw [List.nil_append]
    unfold retryLoop
    rw [hg, he]
    simp only
    rw [if_neg (by simpa [List.isEmpty_iff] using hne), hc]
  | cons b l1 ih =>
    have hb := hprev b (List.mem_cons_self b l1)
    have hrest := ih (fun x hx => hprev x (List.mem_cons_of_mem b hx))
    rw [List.cons_append]
    unfold retryLoop
    rcases hb with hb | hb | ⟨rooms2, hb1, hb2⟩
    · rw [hb]
      exact hrest
    · rcases hbg : (f b).goto with _ | _ <;> simp only [hbg]
      · exact hrest
      · rw [hb]
        exact hrest
    · rcases hbg : (f b).goto with _ | _ <;> simp only [hbg]
      · exact hrest
      · rw [hb1]
        simp only
        rw [if_pos (by simp [hb2])]
        exact hrest

theorem retryLoop_exhausted (f : ℕ → RetryDayEnv) (cf : Option Unit)
    (hcf : cf = some ()) (l : List ℕ)
    (hall : ∀ a ∈ l, retryDayYieldsEmpty (f a)) :
    retryLoop f cf l = .ok [] := by
  induction l with
  | nil =>
    unfold retryLoop
    rw [hcf]
  | cons a rest ih =>
    have ha := hall a (List.mem_cons_self a rest)
    have hrest := ih (fun x hx => hall x (List.mem_cons_of_mem a hx))
    unfold retryLoop
    rcases ha with ha | ha | ⟨rooms, ha1, ha2⟩
    · rw [ha]
      exact hrest
    · rcases hg : (f a).goto with _ | _ <;> simp only [hg]
      · exact hrest
      · rw [ha]
        exact hrest
    · rcases hg : (f a).goto with _ | _ <;> simp only [hg]
      · exact hrest
      · rw [ha1]
        simp only
        rw [if_pos (by simp [ha2])]
        exact hrest

theorem retryLoop_rooms (renv : ℕ → RetryDayEnv) (cf : Option Unit) :
    ∀ (l : List ℕ) (out : List DayEntry), retryLoop renv cf l = .ok out →
      ∀ e ∈ out, ∃ rooms, e.rooms = firstPriceByType rooms := by
  intro l
  induction l with
  | nil =>
    intro out h
    unfold retryLoop at h
    rcases hcf : cf with _ | u <;> rw [hcf] at h
    · exact Except.noConfusion h
    · have hout : ([] : List DayEntry) = out := by injection h
      subst hout
      intro e he
      simp at he
  | cons a rest ih =>
    intro out h
    unfold retryLoop at h
    rcases hg : (renv a).goto with _ | g <;> rw [hg] at h
    · exact ih out h
    · rcases hev : (renv a).eval with _ | rooms <;> rw [hev] at h
      · exact ih out h
      · simp only at h
        by_cases hemp : (firstPriceByType rooms).isEmpty
        · rw [if_pos hemp] at h
          exact ih out h
        · rw [if_neg hemp] at h
          rcases hc : (renv a).close with _ | c <;> rw [hc] at h
          · exact ih out h
          · have hout : ([⟨(a : ℤ), firstPriceByType rooms⟩] : List DayEntry) = out := by
              injection h
            subst hout
            intro e he
            rw [List.mem_singleton] at he
            subst he
            exact ⟨rooms, rfl⟩

theorem scrapeBookingPricesE_rooms (hotelName : String) (env : BookingEnv)
    (out : List DayEntry) (h : scrapeBookingPricesE hotelName env = .ok out) :
    ∀ e ∈ out, ∃ rooms, e.rooms = firstPriceByType rooms := by
  unfold scrapeBookingPricesE scrapeBookingPricesCore at h
  rcases h1 : env.launch with _ | u1 <;> rw [h1] at h
  · exact Except.noConfusion h
  · rcases h2 : env.newPage with _ | u2 <;> rw [h2] at h
    · exact Except.noConfusion h
    · rcases h3 : gotoPhase env with _ | _ | _ <;> rw [h3] at h
      · by_cases hw : waitPhase env
        · rw [if_pos hw] at h
          rcases h5 : env.screenshot with _ | u5 <;> rw [h5] at h
          · exact Except.noConfusion h
          · rcases h6 : searchPhase hotelName env with _ | _ | _ <;> rw [h6] at h
            · rcases h7 : env.primaryEval with _ | primary <;> rw [h7] at h
              · exact Except.noConfusion h
              · simp only at h
                by_cases hd :
                    (firstPriceByType (bookingPipeline primary env.fallbackEval)).isEmpty
                · rw [if_pos hd] at h
                  exact retryLoop_rooms env.retry env.closeFinal retryAdds out h
                · rw [if_neg hd] at h
                  rcases h8 : env.closeSuccess with _ | u6 <;> rw [h8] at h
                  · exact Except.noConfusion h
                  · have hout :
                        ([⟨0, firstPriceByType (bookingPipeline primary env.fallbackEval)⟩] :
                          List DayEntry) = out := by injection h
                    subst hout
                    intro e he
                    rw [List.mem_singleton] at he
                    subst he
                    exact ⟨_, rfl⟩
            · have hout : ([] : List DayEntry) = out := by injection h
              subst hout
              intro e he
              simp at he
            · exact Except.noConfusion h
        · rw [if_neg hw] at h
          exact Except.noConfusion h
      · have hout : ([] : List DayEntry) = out := by injection h
        subst hout
        intro e he
        simp at he
      · exact Except.noConfusion h

theorem dayEntry_rooms_nodup (env : ℤ → DayOutcome) (d : ℤ) :
    ((dayEntry env d).rooms.map roomKey).Nodup := by
  unfold dayEntry
  rcases hg : (env d).gotoOk <;> rcases hx : (env d).extract with _ | rooms <;>
    simp only [hg, hx, Bool.false_eq_true, if_false, if_true]
  · exact List.nodup_nil
  · exact List.nodup_nil
  · exact List.nodup_nil
  · exact firstPriceByType_keys_nodup rooms

theorem scrapeBookingPricesE_keys_nodup (hotelName : String) (env : BookingEnv)
    (out : List DayEntry) (h : scrapeBookingPricesE hotelName env = .ok out) :
    ∀ e ∈ out, (e.rooms.map roomKey).Nodup := by
  intro e he
  obtain ⟨rooms, hr⟩ := scrapeBookingPricesE_rooms hotelName env out h e he
  rw [hr]
  exact firstPriceByType_keys_nodup rooms

theorem scrapeBookingPricesE_retry_dates (hotelName : String) (env : BookingEnv)
    (f : ℕ → RetryDayEnv) (hf : ∀ a ∈ retryAdds, env.retry a = f a) :
    scrapeBookingPricesE hotelName { env with retry := f } =
      scrapeBookingPricesE hotelName env := by
  unfold scrapeBookingPricesE
  have hcore : ∀ r, scrapeBookingPricesCore hotelName { env with retry := f } r =
      scrapeBookingPricesCore hotelName env r := fun r => rfl
  rw [hcore]
  exact congrArg (scrapeBookingPricesCore hotelName env)
    (retryLoop_congr f env.retry env.closeFinal retryAdds
      (fun a ha => (hf a ha).symm))

theorem scrapeBookingPricesE_exhausted (hotelName : String) (env : BookingEnv)
    (primary : List RoomRec)
    (h1 : env.launch = some ()) (h2 : env.newPage = some ())
    (h3 : gotoPhase env = .proceed) (h4 : waitPhase env = true)
    (h5 : env.screenshot = some ()) (h6 : searchPhase hotelName env = .proceed)
    (h7 : env.primaryEval = some primary)
    (h8 : firstPriceByType (bookingPipeline primary env.fallbackEval) = [])
    (h9 : env.closeFinal = some ())
    (hall : ∀ a ∈ retryAdds, retryDayYieldsEmpty (env.retry a)) :
    scrapeBookingPricesE hotelName env = .ok [] := by
  unfold scrapeBookingPricesE scrapeBookingPricesCore
  rw [h1, h2, h3, h4, h5, h6, h7]
  simp only [if_true]
  rw [if_pos (by simp [h8])]
  exact retryLoop_exhausted env.retry env.closeFinal h9 retryAdds hall

theorem scrapeBookingPricesE_first_success (hotelName : String) (env : BookingEnv)
    (primary : List RoomRec) (l1 l2 : List ℕ) (a : ℕ) (rooms : List RoomRec)
    (h1 : env.launch = some ()) (h2 : env.newPage = some ())
    (h3 : gotoPhase env = .proceed) (h4 : waitPhase env = true)
    (h5 : env.screenshot = some ()) (h6 : searchPhase hotelName env = .proceed)
    (h7 : env.primaryEval = some primary)
    (h8 : firstPriceByType (bookingPipeline primary env.fallbackEval) = [])
    (hsplit : retryAdds = l1 ++ a :: l2)
    (hprev : ∀ b ∈ l1, retryDayYieldsEmpty (env.retry b))
    (hg : (env.retry a).goto = some ()) (he : (env.retry a).eval = some rooms)
    (hne : firstPriceByType rooms ≠ []) (hc : (env.retry a).close = some ()) :
    scrapeBookingPricesE hotelName env = .ok [⟨(a : ℤ), firstPriceByType rooms⟩] := by
  unfold scrapeBookingPricesE scrapeBookingPricesCore
  rw [h1, h2, h3, h4, h5, h6, h7]
  simp only [if_true]
  rw [if_pos (by simp [h8]), hsplit]
  exact retryLoop_first_success env.retry env.closeFinal l1 l2 a rooms hprev hg he hne hc

end Arkus

/-! ## Claim theorems -/

/-- Claim C4: for every window length N with 1 <= N <= 90, the date-range partition
used by the multi-day scheduler is a list of at most 3 contiguous, non-overlapping
inclusive [start,end] ranges whose union is exactly the set of day offsets [0, N-1]. -/
theorem c4_partition (N : ℤ) (h1 : 1 ≤ N) (h2 : N ≤ 90) :
    (Arkus.dateRanges N).length ≤ 3 ∧
    (Arkus.dateRanges N).Pairwise (fun p q => p.2 < q.1) ∧
    (Arkus.dateRanges N).Chain' (fun p q => q.1 = p.2 + 1) ∧
    (∀ p ∈ Arkus.dateRanges N, p.1 ≤ p.2) ∧
    (∀ d : ℤ, (0 ≤ d ∧ d < N) ↔ ∃ p ∈ Arkus.dateRanges N, p.1 ≤ d ∧ d ≤ p.2) := by
  rcases lt_or_le N 32 with hA | hA
  · rw [Arkus.dateRanges_eq_low h1 (by omega)]
    refine ⟨by simp, by simp, by simp, by simp; omega, fun d => ?_⟩
    simp only [List.mem_singleton]
    constructor
    · intro hd
      exact ⟨(0, N - 1), rfl, by omega⟩
    · rintro ⟨p, rfl, hp⟩
      simp at hp
      omega
  · rcases lt_or_le N 62 with hB | hB
    · rw [Arkus.dateRanges_eq_mid hA (by omega)]
      refine ⟨by simp, ?_, ?_, ?_, fun d => ?_⟩
      · refine List.Pairwise.cons ?_ (List.Pairwise.cons ?_ List.Pairwise.nil)
        · intro p hp
          rw [List.mem_singleton] at hp
          subst hp
          norm_num
        · intro p hp
          exact absurd hp (List.not_mem_nil p)
      · refine List.chain'_cons.mpr ⟨by norm_num, List.chain'_singleton _⟩
      · intro p hp
        rcases List.mem_cons.mp hp with rfl | hp
        · norm_num
        · rw [List.mem_singleton] at hp
          subst hp
          simp only
          omega
      · constructor
        · intro hd
          rcases le_or_lt d 30 with hd30 | hd30
          · exact ⟨(0, 30), by simp, by omega⟩
          · exact ⟨(31, N - 1), by simp, by omega⟩
        · rintro ⟨p, hp, hdp⟩
          rcases List.mem_cons.mp hp with rfl | hp
          · omega
          · rw [List.mem_singleton] at hp
            subst hp
            simp only at hdp
            omega
    · rw [Arkus.dateRanges_eq_high hB (by omega)]
      refine ⟨by simp, ?_, ?_, ?_, fun d => ?_⟩
      · refine List.Pairwise.cons ?_ (List.Pairwise.cons ?_
          (List.Pairwise.cons ?_ List.Pairwise.nil))
        · intro p hp
          rcases List.mem_cons.mp hp with rfl | hp
          · norm_num
          · rw [List.mem_singleton] at hp
            subst hp
            norm_num
        · intro p hp
          rw [List.mem_singleton] at hp
          subst hp
          norm_num
        · intro p hp
          exact absurd hp (List.not_mem_nil p)
      · exact List.chain'_cons.mpr ⟨by norm_num,
          List.chain'_cons.mpr ⟨by norm_num, List.chain'_singleton _⟩⟩
      · intro p hp
        rcases List.mem_cons.mp hp with rfl | hp
        · norm_num
        · rcases List.mem_cons.mp hp with rfl | hp
          · norm_num
          · rw [List.mem_singleton] at hp
            subst hp
            simp only
            omega
      · constructor
        · intro hd
          rcases le_or_lt d 30 with hd30 | hd30
          · exact ⟨(0, 30), by simp, by omega⟩
          · rcases le_or_lt d 60 with hd60 | hd60
            · exact ⟨(31, 60), by simp, by omega⟩
            · exact ⟨(61, N - 1), by simp, by omega⟩
        · rintro ⟨p, hp, hdp⟩
          rcases List.mem_cons.mp hp with rfl | hp
          · omega
          · rcases List.mem_cons.mp hp with rfl | hp
            · omega
            · rw [List.mem_singleton] at hp
              subst hp
              simp only at hdp
              omega

/-- Witness for C4 at the maximal window N = 90: days 0-89 are covered. -/
theorem c4_partition_witness :
    (1 : ℤ) ≤ 90 ∧ (Arkus.dateRanges 90).length ≤ 3 ∧
      ((0 : ℤ) ≤ 89 ∧ (89 : ℤ) < 90) ∧
      ∃ p ∈ Arkus.dateRanges 90, p.1 ≤ (89 : ℤ) ∧ (89 : ℤ) ≤ p.2 := by
  have h := c4_partition 90 (by norm_num) (by norm_num)
  exact ⟨by norm_num, h.1, ⟨by norm_num, by norm_num⟩,
    (h.2.2.2.2 89).mp ⟨by norm_num, by norm_num⟩⟩

/-- Claim C1, counterexample: scrapeBookingPrices does not return an array for
every input; its chromium.launch call (line 64) sits outside every try block,
so a browser-launch failure rejects the promise instead of resolving to an
array. -/
theorem c1_counterexample :
    Arkus.scrapeBookingPricesE "Grand Hotel Tijuana" Arkus.bookingEnvLaunchFail =
      .error () := rfl

/-- Claim C1 (amended): scrapeSongkick resolves to an array for every behaviour
of the browser (in particular to [] when the launch fails), and
scrapeBookingPrices resolves to an array whenever its unguarded primitives
(launch, newPage, the catch-side waitForLoadState and browser.close calls, the
debug screenshot, the primary extraction evaluate, and the final close)
succeed; a throw from one of those propagates to the caller. -/
theorem c1_uniform_resolution :
    (∀ (toKm : ℚ × ℚ → ℚ × ℚ → ℚ) (origin : ℚ × ℚ) (radiusKm : ℚ)
        (env : Arkus.SkEnv), ∃ l, Arkus.scrapeSongkickE toKm origin radiusKm env = .ok l) ∧
    (∀ (toKm : ℚ × ℚ → ℚ × ℚ → ℚ) (origin : ℚ × ℚ) (radiusKm : ℚ)
        (env : Arkus.SkEnv), env.launch = none →
        Arkus.scrapeSongkickE toKm origin radiusKm env = .ok []) ∧
    (∀ (hotelName : String) (env : Arkus.BookingEnv), Arkus.BookingUnguardedOk env →
        ∃ out, Arkus.scrapeBookingPricesE hotelName env = .ok out) :=
  ⟨Arkus.scrapeSongkickE_isOk, Arkus.scrapeSongkickE_launchFail,
    Arkus.scrapeBookingPricesE_isOk⟩

/-- Witness for C1 at concrete environments: a launch-failing songkick run
resolves to [], and a booking run whose unguarded primitives succeed resolves
to an array. -/
theorem c1_uniform_resolution_witness :
    Arkus.scrapeSongkickE (fun _ _ => 0) (0, 0) 50 Arkus.skEnvLaunchFail = .ok [] ∧
    Arkus.BookingUnguardedOk Arkus.bookingEnvAllOk ∧
    ∃ out, Arkus.scrapeBookingPricesE "Grand Hotel Tijuana" Arkus.bookingEnvAllOk =
      .ok out :=
  ⟨c1_uniform_resolution.2.1 _ _ _ _ rfl, by decide,
    c1_uniform_resolution.2.2 "Grand Hotel Tijuana" _ (by decide)⟩

/-- Claim C2: the code computes CONCURRENT_TASKS = min(concurrency, 5) on line
506 and never uses it; Promise.all starts all (up to 3) range workers at once,
so with concurrency 1 and a 90-day window there is a valid run in which 3 page
sessions are simultaneously open, exceeding min(1, 5) = 1. -/
theorem c2_concurrency_violation :
    Arkus.CONCURRENT_TASKS 1 = 1 ∧
    (Arkus.dateRanges 90).length = 3 ∧
    Arkus.SchedOk Arkus.c2Traces Arkus.c2Sched ∧
    Arkus.maxActive (Arkus.runSched Arkus.c2Traces Arkus.c2Sched) = 3 ∧
    Arkus.CONCURRENT_TASKS 1 < 3 :=
  ⟨rfl, by decide, by decide, by decide, by decide⟩

/-- Claim C3, counterexample: the aggregated output order of a multi-day run is
not independent of the interleaving of the concurrent range workers; with a
32-day window, two complete runs whose workers finish in different orders
produce differently ordered results arrays. -/
theorem c3_counterexample :
    Arkus.SchedOk Arkus.c3Blocks Arkus.c3SchedA ∧
    Arkus.SchedOk Arkus.c3Blocks Arkus.c3SchedB ∧
    Arkus.scrapeMultipleDatesRun Arkus.c3DayEnv 32 Arkus.c3SchedA ≠
      Arkus.scrapeMultipleDatesRun Arkus.c3DayEnv 32 Arkus.c3SchedB :=
  ⟨by decide, by decide, by decide⟩

/-- Claim C3 (amended): each range worker pushes its per-day entries into the
shared results array as the days complete, so the aggregate order depends on
the completion interleaving and no re-ordering by assigned range happens; what
does hold in every complete run is that the output is a permutation of the
per-range entry lists joined in range order, the entries of each range occur within
it in assigned-day order (as a sublist), and within one range days are visited
strictly sequentially in ascending order. -/
theorem c3_aggregation_shape (env : ℤ → Arkus.DayOutcome) (days : ℤ) (σ : List ℕ)
    (h : Arkus.SchedOk (Arkus.blockOuts env days) σ) :
    (Arkus.scrapeMultipleDatesRun env days σ).Perm (Arkus.blockOuts env days).flatten ∧
    (∀ (b : ℕ) (r : List Arkus.DayEntry), (Arkus.blockOuts env days)[b]? = some r →
        r.Sublist (Arkus.scrapeMultipleDatesRun env days σ)) ∧
    (∀ p ∈ Arkus.dateRanges days,
        (Arkus.blockEntries env p.1 p.2).Pairwise (fun x y => x.offset < y.offset)) :=
  ⟨Arkus.runSched_perm σ _ h, fun _ _ hb => Arkus.runSched_sublist σ _ h hb,
    fun p _ => Arkus.blockEntries_sorted env p.1 p.2⟩

/-- Witness for C3 (amended) on a complete 32-day run. -/
theorem c3_aggregation_shape_witness :
    (Arkus.scrapeMultipleDatesRun Arkus.c3DayEnv 32 Arkus.c3SchedA).Perm
      (Arkus.blockOuts Arkus.c3DayEnv 32).flatten :=
  (c3_aggregation_shape Arkus.c3DayEnv 32 Arkus.c3SchedA (by decide)).1

/-- Claim C5: in every output collection of the price scrapers no two records
share a natural key (the trimmed room_type), the record retained for a key is
the first one encountered, every record with a non-empty key is represented,
and every rooms list emitted by the single-day scraper or by a multi-day day
entry has pairwise-distinct keys. -/
theorem c5_dedup_first_seen :
    (∀ l : List Arkus.RoomRec, ((Arkus.firstPriceByType l).map Arkus.roomKey).Nodup) ∧
    (∀ (l : List Arkus.RoomRec) (r : Arkus.RoomRec), r ∈ Arkus.firstPriceByType l →
        l.find? (fun x => Arkus.roomKey x == Arkus.roomKey r) = some r) ∧
    (∀ (l : List Arkus.RoomRec) (r : Arkus.RoomRec), r ∈ l → Arkus.roomKey r ≠ "" →
        ∃ r2 ∈ Arkus.firstPriceByType l, Arkus.roomKey r2 = Arkus.roomKey r) ∧
    (∀ (hotelName : String) (env : Arkus.BookingEnv) (out : List Arkus.DayEntry),
        Arkus.scrapeBookingPricesE hotelName env = .ok out →
        ∀ e ∈ out, (e.rooms.map Arkus.roomKey).Nodup) ∧
    (∀ (env : ℤ → Arkus.DayOutcome) (d : ℤ),
        ((Arkus.dayEntry env d).rooms.map Arkus.roomKey).Nodup) :=
  ⟨Arkus.firstPriceByType_keys_nodup,
    fun _ _ h => Arkus.firstPriceByType_first_wins h,
    fun _ _ hr hk => Arkus.firstPriceGo_covers [] hr hk (by simp),
    Arkus.scrapeBookingPricesE_keys_nodup,
    Arkus.dayEntry_rooms_nodup⟩

/-- Witness for C5: on a concrete list with a duplicated room type, the dedupe
keeps exactly the first record per key. -/
theorem c5_dedup_first_seen_witness :
    (⟨"Suite", "$120", none⟩ : Arkus.RoomRec) ∈
        Arkus.firstPriceByType
          [⟨"Suite", "$120", none⟩, ⟨"Suite", "$90", none⟩, ⟨"Twin", "$80", none⟩] ∧
    [(⟨"Suite", "$120", none⟩ : Arkus.RoomRec), ⟨"Suite", "$90", none⟩,
        ⟨"Twin", "$80", none⟩].find?
        (fun x => Arkus.roomKey x == Arkus.roomKey ⟨"Suite", "$120", none⟩) =
      some ⟨"Suite", "$120", none⟩ :=
  ⟨by decide,
    c5_dedup_first_seen.2.1
      [⟨"Suite", "$120", none⟩, ⟨"Suite", "$90", none⟩, ⟨"Twin", "$80", none⟩]
      ⟨"Suite", "$120", none⟩ (by decide)⟩

/-- Claim C6: for both extraction pipelines a non-empty primary result is the
pipeline output, exactly and unmerged: the booking fallback evaluate never
changes the result when the hprt-table strategy found rooms, and the songkick
anchor scan never changes the result when the JSON-LD strategy found events. -/
theorem c6_strategy_short_circuit :
    (∀ (primary : List Arkus.RoomRec) (fb : Option (List Arkus.RoomRec)),
        primary ≠ [] → Arkus.bookingPipeline primary fb = primary) ∧
    (∀ (primary : List Arkus.RoomRec) (fb fb' : Option (List Arkus.RoomRec)),
        primary ≠ [] →
        Arkus.bookingPipeline primary fb = Arkus.bookingPipeline primary fb') ∧
    (∀ (toKm : ℚ × ℚ → ℚ × ℚ → ℚ) (origin : ℚ × ℚ) (radiusKm : ℚ)
        (pg : Arkus.SkPage),
        pg.ldEvents.filterMap (Arkus.ldProcess toKm origin radiusKm) ≠ [] →
        Arkus.skExtract toKm origin radiusKm pg =
          pg.ldEvents.filterMap (Arkus.ldProcess toKm origin radiusKm)) ∧
    (∀ (toKm : ℚ × ℚ → ℚ × ℚ → ℚ) (origin : ℚ × ℚ) (radiusKm : ℚ)
        (pg pg' : Arkus.SkPage), pg.ldEvents = pg'.ldEvents →
        pg.ldEvents.filterMap (Arkus.ldProcess toKm origin radiusKm) ≠ [] →
        Arkus.skExtract toKm origin radiusKm pg =
          Arkus.skExtract toKm origin radiusKm pg') := by
  have hbp : ∀ (primary : List Arkus.RoomRec) (fb : Option (List Arkus.RoomRec)),
      primary ≠ [] → Arkus.bookingPipeline primary fb = primary := by
    intro primary fb hne
    unfold Arkus.bookingPipeline
    rw [if_neg (by simpa [List.length_eq_zero] using hne)]
  have hsk : ∀ (toKm : ℚ × ℚ → ℚ × ℚ → ℚ) (origin : ℚ × ℚ) (radiusKm : ℚ)
      (pg : Arkus.SkPage),
      pg.ldEvents.filterMap (Arkus.ldProcess toKm origin radiusKm) ≠ [] →
      Arkus.skExtract toKm origin radiusKm pg =
        pg.ldEvents.filterMap (Arkus.ldProcess toKm origin radiusKm) := by
    intro toKm origin radiusKm pg hne
    unfold Arkus.skExtract
    rw [if_neg (by simpa [List.isEmpty_iff] using hne)]
  refine ⟨hbp, ?_, hsk, ?_⟩
  · intro primary fb fb' hne
    rw [hbp primary fb hne, hbp primary fb' hne]
  · intro toKm origin radiusKm pg pg' hld hne
    rw [hsk toKm origin radiusKm pg hne, hsk toKm origin radiusKm pg' (hld ▸ hne), hld]

/-- Witness for C6: with one hprt-table room the fallback result is ignored,
and with one JSON-LD event the anchor list is ignored. -/
theorem c6_strategy_short_circuit_witness :
    Arkus.bookingPipeline [⟨"Suite", "$120", some "hprt-table"⟩]
        (some [⟨"Generic", "$10", some "generic"⟩]) =
      [⟨"Suite", "$120", some "hprt-table"⟩] ∧
    Arkus.skExtract (fun _ _ => 1) (0, 0) 50
        ⟨[{ name := "A", startDate := "2025-01-01", venueName := "V",
            url := "/e", geoLat := some 1, geoLon := some 1 }],
          [{ fecha := "2025-02-02", nombre := "B", venue := "W", href := none }]⟩ =
      [{ nombre := "A", fecha := "2025-01-01", lugar := "V",
         enlace := "https://www.songkick.com/e", latitude := some 1,
         longitude := some 1, distance_km := some (Arkus.roundKm2 1) }] := by
  constructor
  · exact c6_strategy_short_circuit.1 _ _ (by decide)
  · rw [c6_strategy_short_circuit.2.2.1 (fun _ _ => 1) (0, 0) 50 _
      (fun h => List.noConfusion h)]
    rfl

/-- Claim C7: the recovery policy of scrapeBookingPrices.  The shift list is
exactly [1,2,3,4,5] (5 additional attempts); the result depends on the
per-shift outcomes only through those 5 shifts, so together with the initial
date at most 6 distinct dates are attempted; when the initial date dedupes to
nothing, the first shifted day with a non-empty deduped result is returned;
and when every attempt yields zero records the call resolves to []. -/
theorem c7_retry_policy :
    Arkus.retryAdds = [1, 2, 3, 4, 5] ∧
    (∀ (hotelName : String) (env : Arkus.BookingEnv) (f : ℕ → Arkus.RetryDayEnv),
        (∀ a ∈ Arkus.retryAdds, env.retry a = f a) →
        Arkus.scrapeBookingPricesE hotelName { env with retry := f } =
          Arkus.scrapeBookingPricesE hotelName env) ∧
    (∀ (hotelName : String) (env : Arkus.BookingEnv) (primary : List Arkus.RoomRec)
        (l1 l2 : List ℕ) (a : ℕ) (rooms : List Arkus.RoomRec),
        env.launch = some () → env.newPage = some () →
        Arkus.gotoPhase env = .proceed → Arkus.waitPhase env = true →
        env.screenshot = some () → Arkus.searchPhase hotelName env = .proceed →
        env.primaryEval = some primary →
        Arkus.firstPriceByType (Arkus.bookingPipeline primary env.fallbackEval) = [] →
        Arkus.retryAdds = l1 ++ a :: l2 →
        (∀ b ∈ l1, Arkus.retryDayYieldsEmpty (env.retry b)) →
        (env.retry a).goto = some () → (env.retry a).eval = some rooms →
        Arkus.firstPriceByType rooms ≠ [] → (env.retry a).close = some () →
        Arkus.scrapeBookingPricesE hotelName env =
          .ok [⟨(a : ℤ), Arkus.firstPriceByType rooms⟩]) ∧
    (∀ (hotelName : String) (env : Arkus.BookingEnv) (primary : List Arkus.RoomRec),
        env.launch = some () → env.newPage = some () →
        Arkus.gotoPhase env = .proceed → Arkus.waitPhase env = true →
        env.screenshot = some () → Arkus.searchPhase hotelName env = .proceed →
        env.primaryEval = some primary →
        Arkus.firstPriceByType (Arkus.bookingPipeline primary env.fallbackEval) = [] →
        env.closeFinal = some () →
        (∀ a ∈ Arkus.retryAdds, Arkus.retryDayYieldsEmpty (env.retry a)) →
        Arkus.scrapeBookingPricesE hotelName env = .ok []) :=
  ⟨rfl, Arkus.scrapeBookingPricesE_retry_dates,
    Arkus.scrapeBookingPricesE_first_success, Arkus.scrapeBookingPricesE_exhausted⟩

/-- Witness for C7: with an empty initial day and an empty first shift, the
scraper returns the day-2 result. -/
theorem c7_retry_policy_witness :
    Arkus.scrapeBookingPricesE "Grand Hotel Tijuana" Arkus.c7Env =
      .ok [⟨((2 : ℕ) : ℤ), Arkus.firstPriceByType [⟨"Suite", "MXN $1,500", none⟩]⟩] := by
  refine c7_retry_policy.2.2.1 "Grand Hotel Tijuana" Arkus.c7Env [] [1] [3, 4, 5] 2
    [⟨"Suite", "MXN $1,500", none⟩] rfl rfl rfl rfl rfl ?_ rfl rfl rfl ?_ rfl rfl
    (fun h => List.noConfusion h) rfl
  · rfl
  · intro b hb
    rw [List.mem_singleton] at hb
    subst hb
    exact Or.inr (Or.inr ⟨[], rfl, rfl⟩)

/-- Claim C8, counterexample: with a configured radius of 10.006 km and an
event at (haversine-modelled) distance 10.006 km, the event is included, but
its distance_km field is 10.01 km, which exceeds the radius: the claimed
invariant distance_km less-or-equal radius fails. -/
theorem c8_counterexample :
    Arkus.ldProcess Arkus.toKmConst (0, 0) Arkus.c8Radius Arkus.c8Item =
        some Arkus.c8Out ∧
    Arkus.c8Out.distance_km = some (Arkus.roundKm2 Arkus.c8Radius) ∧
    Arkus.roundKm2 Arkus.c8Radius = 1001 / 100 ∧
    ¬(1001 / 100 ≤ Arkus.c8Radius) := by
  refine ⟨?_, rfl, ?_, by norm_num [Arkus.c8Radius]⟩
  · unfold Arkus.ldProcess Arkus.toKmConst Arkus.c8Radius Arkus.c8Item
    simp only
    rw [if_pos (le_refl _)]
    rfl
  · unfold Arkus.roundKm2 Arkus.c8Radius
    rw [show (⌊(5003 : ℚ) / 500 * 100 + 1 / 2⌋ : ℤ) = 1001 by
      rw [Int.floor_eq_iff]; norm_num]
    norm_num

/-- Claim C8 (amended): an event with known geo is included iff its distance
does not exceed the radius, and then carries distance_km equal to the distance
rounded to 2 decimals (so distance_km can exceed the radius by less than
0.005; it stays below the radius whenever the radius has at most 2 decimal
places); an event without complete geo is included unconditionally with no
distance_km. -/
theorem c8_geo_filter_amended :
    (∀ (toKm : ℚ × ℚ → ℚ × ℚ → ℚ) (origin : ℚ × ℚ) (radiusKm : ℚ)
        (it : Arkus.LdItem) (la lo : ℚ), it.geoLat = some la → it.geoLon = some lo →
        ((Arkus.ldProcess toKm origin radiusKm it).isSome ↔
          toKm origin (la, lo) ≤ radiusKm) ∧
        (toKm origin (la, lo) ≤ radiusKm →
          ∃ ev, Arkus.ldProcess toKm origin radiusKm it = some ev ∧
            ev.distance_km = some (Arkus.roundKm2 (toKm origin (la, lo))) ∧
            ev.latitude = some la ∧ ev.longitude = some lo)) ∧
    (∀ (toKm : ℚ × ℚ → ℚ × ℚ → ℚ) (origin : ℚ × ℚ) (radiusKm : ℚ)
        (it : Arkus.LdItem), it.geoLat = none ∨ it.geoLon = none →
        ∃ ev, Arkus.ldProcess toKm origin radiusKm it = some ev ∧
          ev.distance_km = none ∧ ev.latitude = none ∧ ev.longitude = none) ∧
    (∀ (toKm : ℚ × ℚ → ℚ × ℚ → ℚ) (origin : ℚ × ℚ) (radiusKm : ℚ)
        (a : Arkus.AnchorItem) (la lo : ℚ), a.geoLat = some la → a.geoLon = some lo →
        ((Arkus.anchorProcess toKm origin radiusKm a).isSome ↔
          toKm origin (la, lo) ≤ radiusKm) ∧
        (toKm origin (la, lo) ≤ radiusKm →
          ∃ ev, Arkus.anchorProcess toKm origin radiusKm a = some ev ∧
            ev.distance_km = some (Arkus.roundKm2 (toKm origin (la, lo))))) ∧
    (∀ (toKm : ℚ × ℚ → ℚ × ℚ → ℚ) (origin : ℚ × ℚ) (radiusKm : ℚ)
        (a : Arkus.AnchorItem), a.geoLat = none ∨ a.geoLon = none →
        ∃ ev, Arkus.anchorProcess toKm origin radiusKm a = some ev ∧
          ev.distance_km = none) ∧
    (∀ d radiusKm : ℚ, d ≤ radiusKm → (∃ z : ℤ, (z : ℚ) = 100 * radiusKm) →
        Arkus.roundKm2 d ≤ radiusKm) := by
  refine ⟨?_, ?_, ?_, ?_, ?_⟩
  · intro toKm origin radiusKm it la lo hla hlo
    unfold Arkus.ldProcess
    rw [hla, hlo]
    simp only
    by_cases hd : toKm origin (la, lo) ≤ radiusKm
    · rw [if_pos hd]
      exact ⟨by simp [hd], fun _ => ⟨_, rfl, rfl, rfl, rfl⟩⟩
    · rw [if_neg hd]
      exact ⟨by simp [hd], fun h => absurd h hd⟩
  · intro toKm origin radiusKm it h
    unfold Arkus.ldProcess
    rcases hla : it.geoLat with _ | la <;> rcases hlo : it.geoLon with _ | lo
    · exact ⟨_, rfl, rfl, rfl, rfl⟩
    · exact ⟨_, rfl, rfl, rfl, rfl⟩
    · exact ⟨_, rfl, rfl, rfl, rfl⟩
    · rcases h with h | h
      · rw [hla] at h
        exact Option.noConfusion h
      · rw [hlo] at h
        exact Option.noConfusion h
  · intro toKm origin radiusKm a la lo hla hlo
    unfold Arkus.anchorProcess
    rw [hla, hlo]
    simp only
    by_cases hd : radiusKm < toKm origin (la, lo)
    · rw [if_pos hd]
      exact ⟨by simp [not_le.mpr hd], fun h => absurd h (not_le.mpr hd)⟩
    · rw [if_neg hd]
      exact ⟨by simp [not_lt.mp hd], fun _ => ⟨_, rfl, rfl⟩⟩
  · intro toKm origin radiusKm a h
    unfold Arkus.anchorProcess
    rcases hla : a.geoLat with _ | la <;> rcases hlo : a.geoLon with _ | lo
    · exact ⟨_, rfl, rfl⟩
    · exact ⟨_, rfl, rfl⟩
    · exact ⟨_, rfl, rfl⟩
    · rcases h with h | h
      · rw [hla] at h
        exact Option.noConfusion h
      · rw [hlo] at h
        exact Option.noConfusion h
  · rintro d r hdr ⟨z, hz⟩
    unfold Arkus.roundKm2
    rw [div_le_iff₀ (show (0 : ℚ) < 100 by norm_num)]
    have hmul : d * 100 ≤ (z : ℚ) := by
      have h1 : d * 100 ≤ r * 100 :=
        mul_le_mul_of_nonneg_right hdr (by norm_num)
      have h2 : r * 100 = (z : ℚ) := by rw [hz]; ring
      linarith
    have hfl : (⌊d * 100 + 1 / 2⌋ : ℤ) ≤ z := by
      have hlt : d * 100 + 1 / 2 < ((z + 1 : ℤ) : ℚ) := by
        push_cast
        linarith
      have := Int.floor_lt.mpr hlt
      omega
    have hz2 : (z : ℚ) = r * 100 := by rw [hz]; ring
    calc ((⌊d * 100 + 1 / 2⌋ : ℤ) : ℚ) ≤ (z : ℚ) := by exact_mod_cast hfl
      _ = r * 100 := hz2

/-- Witness for C8 (amended) at concrete values: an in-radius geo event is
included, and rounding keeps an integer-rational distance below an integer
radius. -/
theorem c8_geo_filter_amended_witness :
    ((Arkus.ldProcess (fun _ _ => 3) (0, 0) 10 Arkus.c8WitItem).isSome ↔
      (3 : ℚ) ≤ 10) ∧
    Arkus.roundKm2 7 ≤ (10 : ℚ) :=
  ⟨(c8_geo_filter_amended.1 (fun _ _ => 3) (0, 0) 10 Arkus.c8WitItem 1 1 rfl rfl).1,
    c8_geo_filter_amended.2.2.2.2 7 10 (by norm_num) ⟨1000, by norm_num⟩⟩

/-- Claim C9: within a date block days are visited strictly sequentially; a
failed day contributes an entry with an empty rooms list and the block
continues; consequently for every window of 1 to 90 days each covered day
offset occurs exactly once among the entries of every complete run, regardless
of per-day failures and of the schedule. -/
theorem c9_per_day_entries (env : ℤ → Arkus.DayOutcome) (days : ℤ) (σ : List ℕ)
    (h1 : 1 ≤ days) (h2 : days ≤ 90)
    (hσ : Arkus.SchedOk (Arkus.blockOuts env days) σ) :
    (∀ d : ℤ, (Arkus.scrapeMultipleDatesRun env days σ).countP
        (fun x => decide (x.offset = d)) = if 0 ≤ d ∧ d < days then 1 else 0) ∧
    (∀ d : ℤ, (env d).gotoOk = false ∨ (env d).extract = none →
        Arkus.dayEntry env d = ⟨d, []⟩) ∧
    (∀ p ∈ Arkus.dateRanges days,
        (Arkus.blockEntries env p.1 p.2).Pairwise (fun x y => x.offset < y.offset)) :=
  ⟨fun d => Arkus.multiDay_countP env days σ h1 h2 hσ d,
    fun d h => Arkus.dayEntry_failure env d h,
    fun p _ => Arkus.blockEntries_sorted env p.1 p.2⟩

/-- Witness for C9 on a 3-day run whose day 1 fails: offset 1 still occurs
exactly once. -/
theorem c9_per_day_entries_witness :
    (Arkus.scrapeMultipleDatesRun Arkus.c9DayEnv 3 (List.replicate 3 0)).countP
        (fun x => decide (x.offset = 1)) = 1 := by
  have h := (c9_per_day_entries Arkus.c9DayEnv 3 (List.replicate 3 0) (by norm_num)
    (by norm_num) (by decide)).1 1
  rw [h, if_pos (by norm_num)]

/-- Claim C10: for every response behaviour of the events provider,
EventsFetcher.getAllEvents terminates within at most 52 iterations of its
pagination loop (empty page, short page, or the page greater than 50 safety
counter), and the query issued is identical on every iteration, since the page
counter is never added to the request parameters. -/
theorem c10_pagination_terminates :
    ∀ provider : ℕ → List Arkus.TmEvent,
      (∃ r : List Arkus.TmEvent × ℕ, Arkus.getAllEventsM provider = some r ∧
        r.2 ≤ 52) ∧
      (∀ (apiKey : String) (city : Option String) (startDT endDT : String)
          (latlong : Option (ℚ × ℚ)) (radius : ℚ) (cc : Option String) (i j : ℕ),
          Arkus.getAllQueryAt apiKey city startDT endDT latlong radius cc i =
            Arkus.getAllQueryAt apiKey city startDT endDT latlong radius cc j) := by
  intro provider
  constructor
  · obtain ⟨r, hr⟩ := Arkus.getAllLoop_isSome provider 52 0 0 [] (by norm_num)
    refine ⟨r, hr, ?_⟩
    have := Arkus.getAllLoop_calls_le provider 52 0 0 [] r hr
    omega
  · intro _ _ _ _ _ _ _ _ _
    rfl
